import Mathlib

/-!
Verification of the J.A.R.V.I.S request-serving pipeline.

Shallow embedding of the repository's Python code:
- `app/utils/retry.py` (`with_retry`)
- `app/services/realtime_service.py` (`search_tavily`, `RealtimeGroqService.get_response`)
- `config.py` (`_load_groq_api_keys`, `GROQ_API_KEY`)
- `app/main.py` (`_is_rate_limit_error`, `RATE_LIMIT_MESSAGE`, the exception
  handling of the `/chat` and `/chat/realtime` endpoints)
- `app/services/vector_store.py` (`create_vector_store`, `get_retriever`)
- the credential rotator of `app/services/groq_service.py` (file not present;
  modelled from the specification, section 4.3).

Remote calls are modelled as oracles: a call target is a function from the
invocation index to `Except` (the i-th invocation either raises or returns).
Python floats for backoff delays are modelled as rationals (the delays only
ever double, which is exact). Time waits are recorded in a trace rather than
performed.
-/

namespace Jarvis

/-- Outcome of `with_retry` (`app/utils/retry.py`): a returned value, a
re-raised exception from the wrapped call, or the `TypeError` produced by
`raise last_exception` when `last_exception` is still `None` because the
`for attempt in range(max_retries)` loop body never ran. -/
inductive RetryOutcome (ε α : Type) where
  | success (a : α)
  | failure (e : ε)
  | typeError
deriving DecidableEq, Repr

/-- Trace of one `with_retry` execution: its outcome, how many times the
wrapped callable was invoked, and the `time.sleep` delays performed, in
order. -/
structure RetryTrace (ε α : Type) where
  outcome : RetryOutcome ε α
  calls : Nat
  sleeps : List ℚ
deriving DecidableEq, Repr

/-- Loop of `with_retry` (`app/utils/retry.py`, lines 36-52): `attempt` is the
index of the current attempt, `remaining` the number of loop iterations left,
`delay` the current backoff delay. `remaining = 0` is reached only when the
whole loop was skipped (`max_retries <= 0`), where Python executes
`raise last_exception` with `last_exception = None`, a `TypeError`. On the
final iteration (`attempt == max_retries - 1`) the bare `raise` re-raises the
caught exception; otherwise the code sleeps `delay` and doubles it. -/
def with_retry_go (fn : Nat → Except ε α) : Nat → Nat → ℚ → RetryTrace ε α
  | _, 0, _ => ⟨.typeError, 0, []⟩
  | attempt, remaining + 1, delay =>
    match fn attempt with
    | .ok a => ⟨.success a, 1, []⟩
    | .error e =>
      match remaining with
      | 0 => ⟨.failure e, 1, []⟩
      | r + 1 =>
        let t := with_retry_go fn (attempt + 1) (r + 1) (delay * 2)
        ⟨t.outcome, t.calls + 1, delay :: t.sleeps⟩

/-- `with_retry` (`app/utils/retry.py`): execute `fn`, retrying with
exponential backoff for `max_retries` total attempts. `max_retries` is an
integer as in Python; `range(max_retries)` is empty for non-positive values,
which `Int.toNat` reproduces. -/
def with_retry (fn : Nat → Except ε α) (max_retries : Int := 3)
    (initial_delay : ℚ := 1) : RetryTrace ε α :=
  with_retry_go fn 0 max_retries.toNat initial_delay

/-- The wrapped call is invoked at most `remaining` times. -/
theorem with_retry_go_calls_le (fn : Nat → Except ε α) :
    ∀ (remaining attempt : Nat) (delay : ℚ),
      (with_retry_go fn attempt remaining delay).calls ≤ remaining := by
  intro remaining
  induction remaining with
  | zero => intro attempt delay; simp [with_retry_go]
  | succ r ih =>
    intro attempt delay
    rw [with_retry_go]
    cases h : fn attempt with
    | ok a => simp
    | error e =>
      cases r with
      | zero => simp
      | succ r' =>
        simpa using Nat.succ_le_succ (ih (attempt + 1) (delay * 2))

/-- If at least one attempt is allowed, the wrapped call is invoked at least
once. -/
theorem with_retry_go_calls_pos (fn : Nat → Except ε α) :
    ∀ (remaining attempt : Nat) (delay : ℚ), 1 ≤ remaining →
      1 ≤ (with_retry_go fn attempt remaining delay).calls := by
  intro remaining
  induction remaining with
  | zero => intro attempt delay h; omega
  | succ r ih =>
    intro attempt delay _
    rw [with_retry_go]
    cases h : fn attempt with
    | ok a => simp
    | error e =>
      cases r with
      | zero => simp
      | succ r' => simp

/-- The recorded sleeps are exactly the doubling sequence
`delay, 2*delay, 4*delay, …`, one per non-final failed attempt: one fewer
than the number of invocations. -/
theorem with_retry_go_sleeps (fn : Nat → Except ε α) :
    ∀ (remaining attempt : Nat) (delay : ℚ),
      (with_retry_go fn attempt remaining delay).sleeps =
        (List.range ((with_retry_go fn attempt remaining delay).calls - 1)).map
          (fun i => delay * 2 ^ i) := by
  intro remaining
  induction remaining with
  | zero => intro attempt delay; simp [with_retry_go]
  | succ r ih =>
    intro attempt delay
    rw [with_retry_go]
    cases h : fn attempt with
    | ok a => simp
    | error e =>
      cases r with
      | zero => simp
      | succ r' =>
        simp only
        have hpos := with_retry_go_calls_pos fn (r' + 1) (attempt + 1) (delay * 2)
          (by omega)
        set t := with_retry_go fn (attempt + 1) (r' + 1) (delay * 2) with ht
        have hcalls : t.calls + 1 - 1 = (t.calls - 1) + 1 := by omega
        rw [ih (attempt + 1) (delay * 2), hcalls, List.range_succ_eq_map,
          List.map_cons, List.map_map, ← ht]
        congr 1
        · ring
        · apply List.map_congr_left
          intro i _
          simp only [Function.comp_apply, Nat.succ_eq_add_one]
          ring

/-- If the attempts with indices `attempt, …, attempt + i - 1` all raise and
the attempt with index `attempt + i` returns `a` (with `i` inside the attempt
budget), the loop returns `a` after exactly `i + 1` invocations. -/
theorem with_retry_go_first_success (fn : Nat → Except ε α) :
    ∀ (i remaining attempt : Nat) (delay : ℚ) (a : α), i < remaining →
      (∀ j, j < i → ∃ e, fn (attempt + j) = .error e) →
      fn (attempt + i) = .ok a →
      (with_retry_go fn attempt remaining delay).outcome = .success a ∧
        (with_retry_go fn attempt remaining delay).calls = i + 1 := by
  intro i
  induction i with
  | zero =>
    intro remaining attempt delay a hlt _ hok
    match remaining, hlt with
    | r + 1, _ =>
      rw [with_retry_go]
      rw [Nat.add_zero] at hok
      rw [hok]
      exact ⟨rfl, rfl⟩
  | succ i ih =>
    intro remaining attempt delay a hlt hfail hok
    match remaining, hlt with
    | r + 1, _ =>
      obtain ⟨e0, he0⟩ := hfail 0 (Nat.succ_pos i)
      rw [Nat.add_zero] at he0
      rw [with_retry_go, he0]
      match r, hlt with
      | r' + 1, _ =>
        have hfail' : ∀ j, j < i → ∃ e, fn (attempt + 1 + j) = .error e := by
          intro j hj
          obtain ⟨e, he⟩ := hfail (j + 1) (by omega)
          exact ⟨e, by rw [show attempt + 1 + j = attempt + (j + 1) by omega]; exact he⟩
        have hok' : fn (attempt + 1 + i) = .ok a := by
          rw [show attempt + 1 + i = attempt + (i + 1) by omega]; exact hok
        obtain ⟨h1, h2⟩ := ih (r' + 1) (attempt + 1) (delay * 2) a (by omega) hfail' hok'
        exact ⟨h1, by simp only [h2]⟩

/-- If every attempt in the budget raises, the loop performs all `remaining`
invocations and re-raises the exception of the final attempt unchanged. -/
theorem with_retry_go_all_fail (fn : Nat → Except ε α) :
    ∀ (remaining attempt : Nat) (delay : ℚ) (e : ε), 1 ≤ remaining →
      (∀ j, j < remaining → ∃ ej, fn (attempt + j) = .error ej) →
      fn (attempt + (remaining - 1)) = .error e →
      (with_retry_go fn attempt remaining delay).outcome = .failure e ∧
        (with_retry_go fn attempt remaining delay).calls = remaining := by
  intro remaining
  induction remaining with
  | zero => intro attempt delay e h; omega
  | succ r ih =>
    intro attempt delay e _ hfail hlast
    cases r with
    | zero =>
      rw [Nat.add_zero] at hlast
      rw [with_retry_go, hlast]
      exact ⟨rfl, rfl⟩
    | succ r' =>
      obtain ⟨e0, he0⟩ := hfail 0 (Nat.succ_pos _)
      rw [Nat.add_zero] at he0
      rw [with_retry_go, he0]
      have hfail' : ∀ j, j < r' + 1 → ∃ ej, fn (attempt + 1 + j) = .error ej := by
        intro j hj
        obtain ⟨ej, hej⟩ := hfail (j + 1) (by omega)
        exact ⟨ej, by rw [show attempt + 1 + j = attempt + (j + 1) by omega]; exact hej⟩
      have hlast' : fn (attempt + 1 + (r' + 1 - 1)) = .error e := by
        rw [show attempt + 1 + (r' + 1 - 1) = attempt + (r' + 2 - 1) by omega]
        exact hlast
      obtain ⟨h1, h2⟩ := ih (attempt + 1) (delay * 2) e (by omega) hfail' hlast'
      exact ⟨h1, by simp only [h2]⟩

/-- C3: for every zero-argument call and every `max_retries ≥ 1`, `with_retry`
invokes the call at most `max_retries` times, sleeps after each non-final
failure with the delay doubling from `initial_delay`
(`d, 2d, 4d, …`, one sleep per invocation except the last), and returns the
call's result on the first successful attempt, after exactly that many
invocations. -/
theorem with_retry_backoff_and_first_success (fn : Nat → Except ε α)
    (m : Nat) (d : ℚ) (_hm : 1 ≤ m) :
    (with_retry fn m d).calls ≤ m ∧
      (with_retry fn m d).sleeps =
        (List.range ((with_retry fn m d).calls - 1)).map (fun i => d * 2 ^ i) ∧
      (∀ i a, i < m → (∀ j, j < i → ∃ e, fn j = .error e) → fn i = .ok a →
        (with_retry fn m d).outcome = .success a ∧
          (with_retry fn m d).calls = i + 1) := by
  have hto : ((m : Int)).toNat = m := Int.toNat_natCast m
  unfold with_retry
  rw [hto]
  refine ⟨with_retry_go_calls_le fn m 0 d, with_retry_go_sleeps fn m 0 d, ?_⟩
  intro i a hi hfail hok
  exact with_retry_go_first_success fn i m 0 d a hi
    (by intro j hj; simpa using hfail j hj) (by simpa using hok)

/-- Witness for C3: `max_retries = 3`, `initial_delay = 1`, a call that fails
twice then succeeds: the success result is returned after three invocations
and two sleeps of 1s and 2s. -/
theorem with_retry_backoff_and_first_success_witness :
    (with_retry (fun i => if i < 2 then (Except.error "boom" : Except String Nat)
        else .ok 42) ((3 : Nat) : Int) 1).outcome = .success 42 ∧
      (with_retry (fun i => if i < 2 then (Except.error "boom" : Except String Nat)
        else .ok 42) ((3 : Nat) : Int) 1).calls = 3 ∧
      (with_retry (fun i => if i < 2 then (Except.error "boom" : Except String Nat)
        else .ok 42) ((3 : Nat) : Int) 1).sleeps = [1, 2] := by
  obtain ⟨h1, h2, h3⟩ := with_retry_backoff_and_first_success
    (fun i => if i < 2 then (Except.error "boom" : Except String Nat) else .ok 42)
    3 1 (by omega)
  obtain ⟨ho, hc⟩ := h3 2 42 (by omega)
    (fun j hj => ⟨"boom", by interval_cases j <;> rfl⟩) (by rfl)
  refine ⟨ho, hc, ?_⟩
  rw [h2, hc]
  norm_num [List.range_succ]

/-- C4: for every zero-argument call that fails on all `max_retries` attempts
(`max_retries ≥ 1`), `with_retry` re-raises the exception raised by the final
attempt unchanged (the same exception value, not a wrapper), after invoking
the call exactly `max_retries` times. -/
theorem with_retry_reraises_final_failure (fn : Nat → Except ε α)
    (m : Nat) (d : ℚ) (hm : 1 ≤ m)
    (hfail : ∀ j, j < m → ∃ e, fn j = .error e)
    (e : ε) (hlast : fn (m - 1) = .error e) :
    (with_retry fn m d).outcome = .failure e ∧ (with_retry fn m d).calls = m := by
  have hto : ((m : Int)).toNat = m := Int.toNat_natCast m
  unfold with_retry
  rw [hto]
  exact with_retry_go_all_fail fn m 0 d e hm
    (by intro j hj; simpa using hfail j hj) (by simpa using hlast)

/-- Witness for C4: two attempts, both failing, the second with a distinct
exception; the final attempt's exception is re-raised. -/
theorem with_retry_reraises_final_failure_witness :
    (with_retry (fun i => (Except.error (toString i) : Except String Nat))
      ((2 : Nat) : Int) 1).outcome = .failure "1" := by
  exact (with_retry_reraises_final_failure
    (fun i => (Except.error (toString i) : Except String Nat)) 2 1 (by omega)
    (fun j _ => ⟨toString j, rfl⟩) "1" (by rfl)).1

/-- C9: if `with_retry` is called with `max_retries ≤ 0`, the wrapped call is
never invoked and the run ends in the `TypeError` produced by re-raising the
`None`-initialized `last_exception`, not in a returned result and not in a
re-raised exception of the call. -/
theorem with_retry_nonpositive_type_error (fn : Nat → Except ε α)
    (m : Int) (d : ℚ) (hm : m ≤ 0) :
    (with_retry fn m d).calls = 0 ∧
      (with_retry fn m d).outcome = .typeError ∧
      (∀ a, (with_retry fn m d).outcome ≠ .success a) ∧
      (∀ e, (with_retry fn m d).outcome ≠ .failure e) := by
  have hto : m.toNat = 0 := Int.toNat_of_nonpos hm
  unfold with_retry
  rw [hto]
  exact ⟨rfl, rfl, fun a h => by simp [with_retry_go] at h,
    fun e h => by simp [with_retry_go] at h⟩

/-- Witness for C9: `max_retries = 0` with an always-succeeding call: the call
is never invoked and the outcome is the `TypeError`. -/
theorem with_retry_nonpositive_type_error_witness :
    (with_retry (fun _ => (Except.ok 7 : Except String Nat)) 0 1).calls = 0 ∧
      (with_retry (fun _ => (Except.ok 7 : Except String Nat)) 0 1).outcome
        = .typeError := by
  obtain ⟨h1, h2, _, _⟩ := with_retry_nonpositive_type_error
    (fun _ => (Except.ok 7 : Except String Nat)) 0 1 (by omega)
  exact ⟨h1, h2⟩

/-- One hit of a Tavily search response. The Python code reads the keys
`title`, `content` and `url` with `dict.get` defaults, so each field is
optional. -/
structure TavilyResult where
  title : Option String
  content : Option String
  url : Option String
deriving DecidableEq, Repr

/-- A Tavily search response: the optional `results` key, read by
`response.get` with default `[]` in `search_tavily`. -/
abbrev TavilyResponse := Option (List TavilyResult)

/-- One iteration of the formatting loop in `search_tavily`
(`app/services/realtime_service.py`, lines 94-103): title and description with
their `dict.get` defaults, the URL line only when the URL string is truthy
(non-empty), then a blank line. -/
def format_tavily_result (r : TavilyResult) : String :=
  "Title: " ++ r.title.getD "No title" ++ "\n" ++
    "Description: " ++ r.content.getD "No description" ++ "\n" ++
    (if (r.url.getD "").isEmpty then "" else "URL: " ++ r.url.getD "" ++ "\n") ++
    "\n"

/-- The formatted text produced by `search_tavily` for a non-empty result
list: header with the query, `[start]` marker, the first `num_results`
results, `[end]` marker. -/
def format_tavily_results (query : String) (num_results : Nat)
    (results : List TavilyResult) : String :=
  "Search results for \x27" ++ query ++ "\x27:\n[start]\n" ++
    String.join ((results.take num_results).map format_tavily_result) ++ "[end]"

/-- `RealtimeGroqService.search_tavily` (`app/services/realtime_service.py`,
lines 62-114). The Tavily client is `none` when `TAVILY_API_KEY` is not set.
The provider call is wrapped in `with_retry` with `max_retries = 3` and
`initial_delay = 1.0`; `oracle i` is what the i-th invocation of the wrapped
lambda does. The surrounding `try/except Exception` turns any raised failure
into `""`; an empty `results` list also yields `""`. -/
def search_tavily (tavily_client : Option Unit)
    (oracle : Nat → Except String TavilyResponse)
    (query : String) (num_results : Nat := 5) : String :=
  match tavily_client with
  | none => ""
  | some _ =>
    match (with_retry oracle 3 1).outcome with
    | .success response =>
      let results := (response : TavilyResponse).getD []
      if results.isEmpty then ""
      else format_tavily_results query num_results results
    | .failure _ => ""
    | .typeError => ""

/-- The retrieved-context string computed in
`RealtimeGroqService.get_response` (lines 127-133): the page contents of the
retrieved documents joined with newlines, or `""` when the document list is
empty or retrieval raised. -/
def retrieved_context (retrieval : Except String (List String)) : String :=
  match retrieval with
  | .ok docs => if docs.isEmpty then "" else String.intercalate "\n" docs
  | .error _ => ""

/-- The system message built in `RealtimeGroqService.get_response`
(lines 135-145): personality prompt plus current time, then the search
section only when `search_results` is truthy, then the context section only
when `context` is truthy. `esc` is `escape_curly_braces` from
`app/services/groq_service.py` (that file is not in the repository snapshot,
so the escaping function is kept abstract). -/
def build_system_message (jarvis_prompt time_info : String)
    (esc : String → String) (search_results context : String) : String :=
  let base := jarvis_prompt ++ "\n\nCurrent time and date: " ++ time_info
  let with_search :=
    if search_results.isEmpty then base
    else base ++ "\n\nRecent search results:\n" ++ esc search_results
  if context.isEmpty then with_search
  else with_search ++
    "\n\nRelevant context from your learning data and past conversations:\n" ++
    esc context

/-- `RealtimeGroqService.get_response` (`app/services/realtime_service.py`,
lines 116-166): run the Tavily search with `num_results = 5`, compute the
retrieved context (empty on retrieval failure), build the system message,
then call the parent's `_invoke_llm`, whose result (or exception, re-raised
by the outer `except`) is returned unchanged. `invoke_llm` abstracts
`GroqService._invoke_llm`, taking the system message, the history pairs and
the question. -/
def get_response (jarvis_prompt : String) (esc : String → String)
    (tavily_client : Option Unit) (oracle : Nat → Except String TavilyResponse)
    (retrieval : Except String (List String)) (time_info : String)
    (invoke_llm : String → List (String × String) → String → Except String String)
    (question : String) (chat_history : List (String × String)) :
    Except String String :=
  let search_results := search_tavily tavily_client oracle question 5
  let context := retrieved_context retrieval
  let system_message :=
    build_system_message jarvis_prompt time_info esc search_results context
  invoke_llm system_message chat_history question

/-- C1: `search_tavily` returns empty text (and raises nothing, being a total
function into `String`) when the search credential is not configured, when
the provider call fails after its retries, and when the provider returns zero
results; in each such case `get_response` still returns whatever answer the
LLM invoker produces for the search-free system message. -/
theorem search_tavily_degrades_to_empty
    (oracle : Nat → Except String TavilyResponse) (q : String) (nr : Nat) :
    search_tavily none oracle q nr = "" ∧
      (∀ e, (with_retry oracle 3 1).outcome = .failure e →
        search_tavily (some ()) oracle q nr = "") ∧
      (∀ resp : TavilyResponse, (with_retry oracle 3 1).outcome = .success resp →
        resp.getD [] = [] → search_tavily (some ()) oracle q nr = "") ∧
      (∀ (client : Option Unit) (jarvis_prompt time_info : String)
          (esc : String → String) (retrieval : Except String (List String))
          (invoke_llm : String → List (String × String) → String →
            Except String String)
          (hist : List (String × String)) (ans : String),
        search_tavily client oracle q 5 = "" →
        invoke_llm (build_system_message jarvis_prompt time_info esc ""
          (retrieved_context retrieval)) hist q = .ok ans →
        get_response jarvis_prompt esc client oracle retrieval time_info
          invoke_llm q hist = .ok ans) := by
  refine ⟨rfl, ?_, ?_, ?_⟩
  · intro e he
    simp [search_tavily, he]
  · intro resp hresp hempty
    simp [search_tavily, hresp, hempty]
  · intro client jarvis_prompt time_info esc retrieval invoke_llm hist ans hs hinv
    simpa [get_response, hs] using hinv

/-- Witness for C1: an oracle that always raises exhausts its three retries,
`search_tavily` returns `""`, and `get_response` with an invoker that answers
`"ok"` still returns `"ok"`. -/
theorem search_tavily_degrades_to_empty_witness :
    search_tavily (some ()) (fun _ => .error "network down") "news" 5 = "" ∧
      get_response "prompt" id (some ()) (fun _ => .error "network down")
        (.ok []) "now" (fun _ _ _ => .ok "ok") "news" [] = .ok "ok" := by
  obtain ⟨h0, h1, h2, h3⟩ := search_tavily_degrades_to_empty
    (fun _ => .error "network down") "news" 5
  have hs : search_tavily (some ()) (fun _ => .error "network down") "news" 5 = "" :=
    h1 "network down" rfl
  exact ⟨hs, h3 (some ()) "prompt" "now" id (.ok []) (fun _ _ _ => .ok "ok")
    [] "ok" hs rfl⟩

/-- C5: the system message passed to the LLM invoker is the personality
prompt plus current-time information, followed by a search-results section
exactly when the Search Augmenter returned non-empty text, followed by a
retrieved-context section exactly when retrieval returned non-empty text
(search ahead of context); with no search capability configured the search
text is empty, the message carries no search section, and the request still
reaches the invoker. -/
theorem realtime_system_message_sections (jarvis_prompt time_info q : String)
    (esc : String → String) (client : Option Unit)
    (oracle : Nat → Except String TavilyResponse)
    (retrieval : Except String (List String))
    (invoke_llm : String → List (String × String) → String → Except String String)
    (hist : List (String × String)) :
    (∀ sr ctx : String,
      build_system_message jarvis_prompt time_info esc sr ctx =
        (jarvis_prompt ++ "\n\nCurrent time and date: " ++ time_info) ++
          (if sr = "" then "" else "\n\nRecent search results:\n" ++ esc sr) ++
          (if ctx = "" then ""
           else "\n\nRelevant context from your learning data and past conversations:\n"
             ++ esc ctx)) ∧
      get_response jarvis_prompt esc client oracle retrieval time_info
          invoke_llm q hist =
        invoke_llm (build_system_message jarvis_prompt time_info esc
          (search_tavily client oracle q 5) (retrieved_context retrieval)) hist q ∧
      (client = none →
        search_tavily client oracle q 5 = "" ∧
        get_response jarvis_prompt esc client oracle retrieval time_info
            invoke_llm q hist =
          invoke_llm ((jarvis_prompt ++ "\n\nCurrent time and date: " ++ time_info) ++
            (if retrieved_context retrieval = "" then ""
             else "\n\nRelevant context from your learning data and past conversations:\n"
               ++ esc (retrieved_context retrieval))) hist q) := by
  have hmsg : ∀ sr ctx : String,
      build_system_message jarvis_prompt time_info esc sr ctx =
        (jarvis_prompt ++ "\n\nCurrent time and date: " ++ time_info) ++
          (if sr = "" then "" else "\n\nRecent search results:\n" ++ esc sr) ++
          (if ctx = "" then ""
           else "\n\nRelevant context from your learning data and past conversations:\n"
             ++ esc ctx) := by
    intro sr ctx
    by_cases h1 : sr = "" <;> by_cases h2 : ctx = "" <;>
      simp [build_system_message, String.isEmpty_iff, h1, h2,
        String.append_empty, String.append_assoc]
  refine ⟨hmsg, rfl, ?_⟩
  intro hc
  subst hc
  refine ⟨rfl, ?_⟩
  show invoke_llm (build_system_message jarvis_prompt time_info esc
    (search_tavily none oracle q 5) (retrieved_context retrieval)) hist q = _
  rw [show search_tavily none oracle q 5 = "" from rfl, hmsg]
  simp [String.append_empty]

/-- Witness for C5: no search capability, one retrieved document; the system
message handed to the invoker is the base prompt followed only by the context
section. -/
theorem realtime_system_message_sections_witness :
    search_tavily none (fun _ => .ok (some [])) "hi" 5 = "" ∧
      get_response "p" id none (fun _ => .ok (some [])) (.ok ["ctx"]) "t"
          (fun sm _ _ => .ok sm) "hi" [] =
        .ok (("p" ++ "\n\nCurrent time and date: " ++ "t") ++
          (if retrieved_context (.ok ["ctx"]) = "" then ""
           else "\n\nRelevant context from your learning data and past conversations:\n"
             ++ id (retrieved_context (.ok ["ctx"])))) := by
  obtain ⟨-, -, h3⟩ := realtime_system_message_sections "p" "t" "hi" id none
    (fun _ => .ok (some [])) (.ok ["ctx"]) (fun sm _ _ => .ok sm) []
  exact h3 rfl

/-- A credential pool with a rotating cursor.

Modelled from the spec: `app/services/groq_service.py` (class `GroqService`,
its shared class-level cursor `_shared_key_index` and the credential-rotation
loop of `_invoke_llm`) is not in the repository snapshot; only its callers
and the spec describe it. Following spec section 4.3: starting from the
current cursor position, attempt the call with that credential (one
Retry-Executor invocation per credential, abstracted here as
`call : String → Except String String` giving each credential's post-retry
outcome); on success advance the cursor by one (mod pool size) and return the
text; on failure advance the cursor by one and try the next credential, up to
pool size attempts total; if every credential fails, raise one aggregated
failure. The returned pair is (result, cursor value after the call). -/
def invoke_with_rotation_go (call : String → Except String String)
    (pool : List String) : Nat → Nat → Except String String × Nat
  | 0, cursor => (.error "All API keys failed", cursor)
  | attempts + 1, cursor =>
    match call (pool.getD (cursor % pool.length) "") with
    | .ok text => (.ok text, (cursor + 1) % pool.length)
    | .error _ => invoke_with_rotation_go call pool attempts ((cursor + 1) % pool.length)

/-- Modelled from the spec (section 4.3): `invoke` tries up to pool-size
credentials starting at the shared cursor. -/
def invoke_with_rotation (call : String → Except String String)
    (pool : List String) (cursor : Nat) : Except String String × Nat :=
  invoke_with_rotation_go call pool pool.length cursor

/-- If the credentials at cursor positions `c, c+1, …, c+n-1` fail and the
one at `c+n` succeeds (inside the attempt budget), the rotation loop returns
the success and leaves the cursor at `(c + n + 1) % pool.length`. -/
theorem invoke_with_rotation_go_spec (call : String → Except String String)
    (pool : List String) (text : String) :
    ∀ (n attempts c : Nat), n < attempts →
      (∀ j, j < n → ∃ e, call (pool.getD ((c + j) % pool.length) "") = .error e) →
      call (pool.getD ((c + n) % pool.length) "") = .ok text →
      invoke_with_rotation_go call pool attempts c =
        (.ok text, (c + n + 1) % pool.length) := by
  intro n
  induction n with
  | zero =>
    intro attempts c hlt _ hok
    match attempts, hlt with
    | a + 1, _ =>
      rw [invoke_with_rotation_go]
      rw [Nat.add_zero] at hok
      rw [hok]
  | succ n ih =>
    intro attempts c hlt hfail hok
    match attempts, hlt with
    | a + 1, _ =>
      obtain ⟨e0, he0⟩ := hfail 0 (Nat.succ_pos n)
      rw [Nat.add_zero] at he0
      rw [invoke_with_rotation_go, he0]
      have hfail' : ∀ j, j < n →
          ∃ e, call (pool.getD (((c + 1) % pool.length + j) % pool.length) "")
            = .error e := by
        intro j hj
        obtain ⟨e, he⟩ := hfail (j + 1) (by omega)
        refine ⟨e, ?_⟩
        rw [Nat.mod_add_mod, show c + 1 + j = c + (j + 1) by omega]
        exact he
      have hok' : call (pool.getD (((c + 1) % pool.length + n) % pool.length) "")
          = .ok text := by
        rw [Nat.mod_add_mod, show c + 1 + n = c + (n + 1) by omega]
        exact hok
      show invoke_with_rotation_go call pool a ((c + 1) % pool.length) =
        (.ok text, (c + (n + 1) + 1) % pool.length)
      rw [ih a ((c + 1) % pool.length) (by omega) hfail' hok']
      have hcur : ((c + 1) % pool.length + n + 1) % pool.length
          = (c + (n + 1) + 1) % pool.length := by
        rw [Nat.add_assoc, Nat.mod_add_mod,
          show c + 1 + (n + 1) = c + (n + 1) + 1 by omega]
      rw [hcur]

/-- C2: with a pool of `M` credentials, for every starting cursor value, if
the first `M - 1` credentials attempted fail and the `M`-th succeeds, then
`invoke` returns the successful result and the shared cursor has advanced
exactly `M` positions (mod `M`) from its value at the start of the call. -/
theorem invoke_with_rotation_all_but_last_fail
    (call : String → Except String String) (pool : List String)
    (cursor : Nat) (text : String) (hM : 1 ≤ pool.length)
    (hfail : ∀ j, j < pool.length - 1 →
      ∃ e, call (pool.getD ((cursor + j) % pool.length) "") = .error e)
    (hok : call (pool.getD ((cursor + (pool.length - 1)) % pool.length) "")
      = .ok text) :
    invoke_with_rotation call pool cursor =
      (.ok text, (cursor + pool.length) % pool.length) := by
  unfold invoke_with_rotation
  rw [invoke_with_rotation_go_spec call pool text (pool.length - 1) pool.length
    cursor (by omega) hfail hok]
  rw [show cursor + (pool.length - 1) + 1 = cursor + pool.length by omega]

/-- Witness for C2: a pool of two credentials, cursor starting at 0, first
credential failing and second succeeding: the result is the success and the
cursor has advanced two positions (mod 2), back to 0. -/
theorem invoke_with_rotation_all_but_last_fail_witness :
    invoke_with_rotation
      (fun k => if k = "key2" then .ok "answer" else .error "429")
      ["key1", "key2"] 0 = (.ok "answer", 0) := by
  have h := invoke_with_rotation_all_but_last_fail
    (fun k => if k = "key2" then .ok "answer" else .error "429")
    ["key1", "key2"] 0 "answer" (by decide)
    (fun j hj => ⟨"429", by
      have hj' : j = 0 := by simpa using hj
      subst hj'; rfl⟩) (by rfl)
  simpa using h

/-- Python's `str.strip()`: remove leading and trailing whitespace. Written
over the character list so that it evaluates by kernel reduction. -/
def pystrip (s : String) : String :=
  ⟨((s.data.dropWhile Char.isWhitespace).reverse.dropWhile
    Char.isWhitespace).reverse⟩

/-- The stripped value of the numbered environment variable
`GROQ_API_KEY_<i>`, as read by `_load_groq_api_keys` (`config.py`, line 94):
`os.getenv(..., "")` followed by `.strip()`. The environment is a partial map
from variable names to values. -/
def numbered_key_value (env : String → Option String) (i : Nat) : String :=
  pystrip ((env ("GROQ_API_KEY_" ++ toString i)).getD "")

/-- The `while True` loop of `_load_groq_api_keys` (`config.py`, lines
92-99): starting at number `start` (2 in the source), append the stripped
value of each numbered variable and stop at the first number whose stripped
value is empty. A real environment holds finitely many variables, so the
loop always terminates; `fuel` bounds the iterations and every theorem below
holds for any sufficiently large fuel. -/
def load_numbered_keys (env : String → Option String) : Nat → Nat → List String
  | 0, _ => []
  | fuel + 1, start =>
    let k := numbered_key_value env start
    if k.isEmpty then [] else k :: load_numbered_keys env fuel (start + 1)

/-- `_load_groq_api_keys` (`config.py`, lines 79-100): the stripped primary
`GROQ_API_KEY` if non-empty, followed by the numbered keys from
`GROQ_API_KEY_2` on. -/
def _load_groq_api_keys (env : String → Option String) (fuel : Nat) :
    List String :=
  let first := pystrip ((env "GROQ_API_KEY").getD "")
  (if first.isEmpty then [] else [first]) ++ load_numbered_keys env fuel 2

/-- The exported `GROQ_API_KEY` constant (`config.py`, line 105):
`GROQ_API_KEYS[0] if GROQ_API_KEYS else ""`. -/
def GROQ_API_KEY (env : String → Option String) (fuel : Nat) : String :=
  (_load_groq_api_keys env fuel).headD ""

/-- Characterization of the numbered-key loop: if the `n` numbered variables
from `start` on are non-empty and the one at `start + n` is missing or empty,
the loop returns exactly those `n` stripped values, whatever the environment
holds at higher numbers. -/
theorem load_numbered_keys_eq (env : String → Option String) :
    ∀ (n start fuel : Nat), n < fuel →
      (∀ j, j < n → (numbered_key_value env (start + j)).isEmpty = false) →
      (numbered_key_value env (start + n)).isEmpty = true →
      load_numbered_keys env fuel start =
        (List.range n).map (fun j => numbered_key_value env (start + j)) := by
  intro n
  induction n with
  | zero =>
    intro start fuel hlt _ hstop
    match fuel, hlt with
    | f + 1, _ =>
      rw [Nat.add_zero] at hstop
      simp [load_numbered_keys, hstop]
  | succ n ih =>
    intro start fuel hlt hrun hstop
    match fuel, hlt with
    | f + 1, _ =>
      have h0 : (numbered_key_value env start).isEmpty = false := by
        simpa using hrun 0 (Nat.succ_pos n)
      rw [load_numbered_keys]
      simp only [h0, Bool.false_eq_true, if_false]
      have hrun' : ∀ j, j < n →
          (numbered_key_value env (start + 1 + j)).isEmpty = false := by
        intro j hj
        rw [show start + 1 + j = start + (j + 1) by omega]
        exact hrun (j + 1) (by omega)
      have hstop' : (numbered_key_value env (start + 1 + n)).isEmpty = true := by
        rw [show start + 1 + n = start + (n + 1) by omega]
        exact hstop
      rw [ih (start + 1) f (by omega) hrun' hstop']
      rw [List.range_succ_eq_map, List.map_cons, List.map_map]
      simp only [List.cons.injEq]
      refine ⟨by rw [Nat.add_zero], ?_⟩
      apply List.map_congr_left
      intro j _
      simp only [Function.comp_apply, Nat.succ_eq_add_one]
      congr 1
      omega

/-- C6: for every environment, credential discovery returns the primary slot
(the stripped `GROQ_API_KEY` when non-empty, nothing when unset or blank)
followed by the contiguous run of numbered alternates from `GROQ_API_KEY_2`,
stopping at the first missing or empty number; variables after that gap do
not appear in the pool (the result does not depend on them). -/
theorem load_groq_api_keys_contiguous (env : String → Option String)
    (n fuel : Nat) (hfuel : n < fuel)
    (hrun : ∀ j, j < n → (numbered_key_value env (2 + j)).isEmpty = false)
    (hstop : (numbered_key_value env (2 + n)).isEmpty = true) :
    _load_groq_api_keys env fuel =
      (if (pystrip ((env "GROQ_API_KEY").getD "")).isEmpty then []
       else [pystrip ((env "GROQ_API_KEY").getD "")]) ++
        (List.range n).map (fun j => numbered_key_value env (2 + j)) := by
  unfold _load_groq_api_keys
  rw [load_numbered_keys_eq env n 2 fuel hfuel hrun hstop]

/-- Witness for C6: primary key set, `GROQ_API_KEY_2` set, `GROQ_API_KEY_3`
missing, `GROQ_API_KEY_4` set after the gap: the pool is the primary plus the
single alternate; the key after the gap is not included. -/
theorem load_groq_api_keys_contiguous_witness :
    _load_groq_api_keys
      (fun name =>
        if name = "GROQ_API_KEY" then some "k1"
        else if name = "GROQ_API_KEY_2" then some "k2"
        else if name = "GROQ_API_KEY_4" then some "k4" else none) 5
      = ["k1", "k2"] := by
  rw [load_groq_api_keys_contiguous
    (fun name =>
      if name = "GROQ_API_KEY" then some "k1"
      else if name = "GROQ_API_KEY_2" then some "k2"
      else if name = "GROQ_API_KEY_4" then some "k4" else none)
    1 5 (by omega)
    (fun j hj => by
      have hj' : j = 0 := by omega
      subst hj'; rfl)
    (by rfl)]
  rfl

/-- C10: if the primary `GROQ_API_KEY` is unset or blank but `GROQ_API_KEY_2`
is set and non-blank, discovery still collects the numbered alternates: the
pool is non-empty and the exported `GROQ_API_KEY` constant equals the first
alternate rather than the empty string. -/
theorem groq_api_key_without_primary (env : String → Option String)
    (fuel : Nat)
    (hp : (pystrip ((env "GROQ_API_KEY").getD "")).isEmpty = true)
    (h2 : (numbered_key_value env 2).isEmpty = false) :
    _load_groq_api_keys env (fuel + 1) ≠ [] ∧
      GROQ_API_KEY env (fuel + 1) = numbered_key_value env 2 ∧
      GROQ_API_KEY env (fuel + 1) ≠ "" := by
  have hload : _load_groq_api_keys env (fuel + 1)
      = numbered_key_value env 2 :: load_numbered_keys env fuel 3 := by
    unfold _load_groq_api_keys
    rw [load_numbered_keys]
    simp [hp, h2]
  have hne : numbered_key_value env 2 ≠ "" := by
    intro h
    have h' : (numbered_key_value env 2).isEmpty = true :=
      (String.isEmpty_iff _).mpr h
    rw [h2] at h'
    exact Bool.false_ne_true h'
  refine ⟨by rw [hload]; simp, ?_, ?_⟩
  · unfold GROQ_API_KEY
    rw [hload, List.headD_cons]
  · unfold GROQ_API_KEY
    rw [hload, List.headD_cons]
    exact hne

/-- Witness for C10: primary unset, `GROQ_API_KEY_2 = "k2"`: the pool is
non-empty and the exported constant is `"k2"`. -/
theorem groq_api_key_without_primary_witness :
    _load_groq_api_keys
        (fun name => if name = "GROQ_API_KEY_2" then some "k2" else none) 1
      ≠ [] ∧
      GROQ_API_KEY
        (fun name => if name = "GROQ_API_KEY_2" then some "k2" else none) 1
      = "k2" := by
  obtain ⟨ha, hb, -⟩ := groq_api_key_without_primary
    (fun name => if name = "GROQ_API_KEY_2" then some "k2" else none)
    0 (by rfl) (by rfl)
  exact ⟨ha, hb.trans (by rfl)⟩

/-- Whether `needle` occurs contiguously inside `hay`: Python's `in` operator
on strings, written over character lists so that it evaluates by kernel
reduction. -/
def substr_occurs : List Char → List Char → Bool
  | hay, needle =>
    if needle.isPrefixOf hay then true
    else
      match hay with
      | [] => false
      | _ :: t => substr_occurs t needle

/-- Python's `str.lower()` (ASCII case folding, which covers the patterns the
code matches against). -/
def pylower (s : String) : String := ⟨s.data.map Char.toLower⟩

/-- `_is_rate_limit_error` (`app/main.py`, lines 46-49): `"429" in str(exc)`
on the raw text, `"rate limit"` and `"tokens per day"` on the lowercased
text. -/
def _is_rate_limit_error (msg : String) : Bool :=
  substr_occurs msg.data "429".data ||
    substr_occurs (pylower msg).data "rate limit".data ||
    substr_occurs (pylower msg).data "tokens per day".data

/-- `RATE_LIMIT_MESSAGE` (`app/main.py`, lines 40-44). -/
def RATE_LIMIT_MESSAGE : String :=
  "You\x27ve reached your daily API limit for this assistant. " ++
    "Your credits will reset in a few hours, or you can upgrade your plan for more. " ++
    "Please try again later."

/-- A failure raised while processing a chat request: Python distinguishes
`ValueError` (raised for invalid session identifiers) from every other
exception, and the handlers in `app/main.py` match on that class. Each
carries its `str(exc)` text. -/
inductive PyException where
  | valueError (msg : String)
  | other (msg : String)
deriving DecidableEq, Repr

/-- The HTTP error produced by a handler: status code and detail string. -/
structure HTTPException where
  status_code : Nat
  detail : String
deriving DecidableEq, Repr

/-- The `except` chain shared by the `/chat` handler (`app/main.py`, lines
285-294) and the `/chat/realtime` handler (lines 358-366): `ValueError`
becomes 400 with the exception text; any other exception becomes 429 with
`RATE_LIMIT_MESSAGE` when `_is_rate_limit_error` matches it, else 500 with
`"Error processing chat: " + str(e)` (both handlers use this same detail
prefix). -/
def chat_exception_response (e : PyException) : HTTPException :=
  match e with
  | .valueError msg => ⟨400, msg⟩
  | .other msg =>
    if _is_rate_limit_error msg then ⟨429, RATE_LIMIT_MESSAGE⟩
    else ⟨500, "Error processing chat: " ++ msg⟩

/-- Counterexample to C7 as stated: a `ValueError` (an invalid session
identifier) is a failure raised while processing the request whose text
matches none of the rate-limit patterns, yet it is surfaced as HTTP 400, not
as a generic 500. -/
theorem chat_exception_value_error_counterexample :
    _is_rate_limit_error "Invalid session_id" = false ∧
      chat_exception_response (.valueError "Invalid session_id")
        = ⟨400, "Invalid session_id"⟩ ∧
      (chat_exception_response (.valueError "Invalid session_id")).status_code
        ≠ 500 ∧
      (chat_exception_response (.valueError "Invalid session_id")).status_code
        ≠ 429 := by
  refine ⟨by decide, rfl, by decide, by decide⟩

/-- C7 (amended): a `ValueError` — an invalid session identifier — is
surfaced as HTTP 400 with the failure text; every other failure whose text
contains `429`, or whose lowercased text contains `rate limit` or
`tokens per day`, is surfaced as the distinct capacity-exceeded condition,
HTTP 429 with the fixed user-facing rate-limit message; every remaining
failure is surfaced as a generic 500, so the two non-400 conditions are
distinguishable by the caller. -/
theorem chat_exception_classification (e : PyException) :
    (∀ msg, e = .valueError msg → chat_exception_response e = ⟨400, msg⟩) ∧
      (∀ msg, e = .other msg → _is_rate_limit_error msg = true →
        chat_exception_response e = ⟨429, RATE_LIMIT_MESSAGE⟩) ∧
      (∀ msg, e = .other msg → _is_rate_limit_error msg = false →
        chat_exception_response e = ⟨500, "Error processing chat: " ++ msg⟩) := by
  refine ⟨?_, ?_, ?_⟩
  · intro msg he
    subst he
    rfl
  · intro msg he hrl
    subst he
    simp [chat_exception_response, hrl]
  · intro msg he hrl
    subst he
    simp [chat_exception_response, hrl]

/-- Witness for C7: a quota failure is mapped to 429 with the fixed message,
an unrelated failure to 500 with the generic detail. -/
theorem chat_exception_classification_witness :
    chat_exception_response (.other "Rate limit reached: tokens per day")
        = ⟨429, RATE_LIMIT_MESSAGE⟩ ∧
      chat_exception_response (.other "connection reset")
        = ⟨500, "Error processing chat: " ++ "connection reset"⟩ := by
  obtain ⟨-, h429, -⟩ :=
    chat_exception_classification (.other "Rate limit reached: tokens per day")
  obtain ⟨-, -, h500⟩ := chat_exception_classification (.other "connection reset")
  exact ⟨h429 _ rfl (by decide), h500 _ rfl (by decide)⟩

/-- `VectorStoreService.create_vector_store`
(`app/services/vector_store.py`, lines 107-124): when no learning-data or
chat-history documents were loaded, build the index from the single
placeholder text; otherwise split the documents into chunks and build the
index from those. The index is modelled by its list of stored chunks and the
text splitter by a function on document lists. -/
def create_vector_store (learning_docs chat_docs : List String)
    (split_documents : List String → List String) : List String :=
  let all_documents := learning_docs ++ chat_docs
  if all_documents.isEmpty then ["No data available yet."]
  else split_documents all_documents

/-- `VectorStoreService.get_retriever` (`app/services/vector_store.py`,
lines 138-142): raises when the store was never built, otherwise returns a
retriever over the store with the requested `k`. -/
def get_retriever (vector_store : Option (List String)) (k : Nat) :
    Except String (List String × Nat) :=
  match vector_store with
  | none => .error "Vector store not initialized. This should not happen."
  | some store => .ok (store, k)

/-- The external FAISS similarity query (an opaque collaborator per the
spec's boundary contract): it returns the stored chunks reordered by
relevance to the query — `sim_order` is that reordering — truncated to the
`k` most relevant. -/
def retriever_invoke (sim_order : List String → List String)
    (store : List String) (k : Nat) : List String :=
  (sim_order store).take k

/-- C8: with an empty document set, `create_vector_store` builds the index
from the single placeholder document; `get_retriever` then succeeds for
every `k`, and every query whose relevance ordering permutes the store
returns the placeholder chunk (for any `k ≥ 1`) instead of failing for lack
of data. -/
theorem create_vector_store_empty_placeholder
    (split_documents : List String → List String)
    (sim_order : List String → List String) (k : Nat) (hk : 1 ≤ k)
    (hperm : (sim_order (create_vector_store [] [] split_documents)).Perm
      (create_vector_store [] [] split_documents)) :
    create_vector_store [] [] split_documents = ["No data available yet."] ∧
      (∀ k', get_retriever (some (create_vector_store [] [] split_documents)) k'
        = .ok (create_vector_store [] [] split_documents, k')) ∧
      retriever_invoke sim_order (create_vector_store [] [] split_documents) k
        = ["No data available yet."] := by
  have hcv : create_vector_store [] [] split_documents
      = ["No data available yet."] := rfl
  refine ⟨hcv, fun k' => rfl, ?_⟩
  rw [retriever_invoke, hcv]
  rw [hcv] at hperm
  rw [List.perm_singleton.mp hperm]
  cases k with
  | zero => omega
  | succ k => simp

/-- Witness for C8: identity splitter and identity relevance ordering with
the default `k = 10`. -/
theorem create_vector_store_empty_placeholder_witness :
    create_vector_store [] [] id = ["No data available yet."] ∧
      retriever_invoke id (create_vector_store [] [] id) 10
        = ["No data available yet."] := by
  obtain ⟨h1, -, h3⟩ := create_vector_store_empty_placeholder id id 10
    (by omega) (List.Perm.refl _)
  exact ⟨h1, h3⟩
